import Mathlib

/-!
# gashirar/debug: a shallow embedding of `main.go`

The HTTP test-double server of `main.go`, embedded as pure functions with
explicit state passing.

* The process-wide configuration `env` is a value of `Specification`, passed
  to every function that reads it.
* What the program obtains from its surroundings is read from a `World`: the
  outputs of the random source, the readings of the clock, and the answers to
  outbound HTTP calls.  What it does to its surroundings is recorded there:
  the arguments of `time.Sleep` and the outbound requests it issued.
* A handler transforms a `ResponseWriter`, which follows `net/http`: the first
  `WriteHeader` commits the status together with the header map as it is at
  that moment, later ones are ignored, and `Write` commits status 200 first
  when nothing is committed yet.
* Go's `int` and `time.Duration` are the 64-bit ones; the product that makes a
  `time.Duration` wraps around modulo `2^64`.
* Calls to the `log` package are left out: no result depends on them.
-/

namespace Debug

/-! ## Strings -/

/-- The pieces of a character list between occurrences of `sep`. -/
def splitChars (sep : Char) : List Char → List (List Char)
  | [] => [[]]
  | c :: cs =>
    if c = sep then [] :: splitChars sep cs
    else
      match splitChars sep cs with
      | [] => [[c]]
      | x :: xs => (c :: x) :: xs

/-- Go's `strings.Split(s, sep)` for a one-character separator. -/
def Split (s : String) (sep : Char) : List String :=
  (splitChars sep s.data).map String.mk

/-- The pieces of `parts` with `sep` between them. -/
def joinChars (sep : Char) : List (List Char) → List Char
  | [] => []
  | [x] => x
  | x :: y :: rest => x ++ sep :: joinChars sep (y :: rest)

/-- Go's `strings.Join(parts, sep)` for a one-character separator. -/
def Join (parts : List String) (sep : Char) : String :=
  String.mk (joinChars sep (parts.map String.data))

/-- The number that a list of decimal digits denotes, most significant digit
first. -/
def digitsValue (ds : List Char) : Nat :=
  ds.foldl (fun acc c => 10 * acc + (c.toNat - 48)) 0

/-- Go's `fmt.Sprintf("%d", i)`: the decimal rendering of an integer. -/
def formatInt : Int → String
  | Int.ofNat n => String.mk (Nat.toDigits 10 n)
  | Int.negSucc n => String.mk ('-' :: Nat.toDigits 10 (n + 1))

/-! ## Go maps with string keys -/

/-- The value of `m[k]` together with its presence. -/
def mapGet {α : Type} (m : List (String × α)) (k : String) : Option α :=
  match m with
  | [] => none
  | (k1, v) :: rest => if k1 = k then some v else mapGet rest k

/-- The map after `delete(m, k)`. -/
def mapDel {α : Type} (m : List (String × α)) (k : String) : List (String × α) :=
  m.filter fun kv => decide (kv.1 ≠ k)

/-- The map after `m[k] = v`. -/
def mapSet {α : Type} (m : List (String × α)) (k : String) (v : α) : List (String × α) :=
  mapDel m k ++ [(k, v)]

/-! ## HTTP headers -/

/-- The bytes allowed in a header field name (`validHeaderFieldByte` of
`net/textproto`): the token characters of RFC 7230. -/
def validHeaderFieldByte (c : Char) : Bool :=
  c.isAlphanum ||
    ['!', '#', '$', '%', '&', Char.ofNat 39, '*', '+', '-', '.', '^', '_', Char.ofNat 96,
      '|', '~'].contains c

/-- The case-normalising loop of `canonicalMIMEHeaderKey`: a letter is upper
case exactly when it starts the key or follows a hyphen. -/
def canonLoop : Bool → List Char → List Char
  | _, [] => []
  | upper, c :: cs =>
    let c1 :=
      if upper && c.isLower then c.toUpper
      else if !upper && c.isUpper then c.toLower
      else c
    c1 :: canonLoop (c1 = '-') cs

/-- Go's `textproto.CanonicalMIMEHeaderKey`: a key with a byte that is not
allowed in a field name is returned unchanged. -/
def CanonicalMIMEHeaderKey (s : String) : String :=
  if s.data.all validHeaderFieldByte then String.mk (canonLoop true s.data) else s

/-- Go's `http.Header`, a `map[string][]string`. -/
abbrev Header := List (String × List String)

/-- Go's `Header.Get`: the first value under the canonical form of the key, or
the empty string. -/
def Header.Get (h : Header) (key : String) : String :=
  match mapGet h (CanonicalMIMEHeaderKey key) with
  | some (v :: _) => v
  | _ => ""

/-- Go's `Header.Set`: the canonical key is mapped to the single value. -/
def Header.Set (h : Header) (key value : String) : Header :=
  mapSet h (CanonicalMIMEHeaderKey key) [value]

/-- Go's `Header.Del`. -/
def Header.Del (h : Header) (key : String) : Header :=
  mapDel h (CanonicalMIMEHeaderKey key)

/-! ## JSON values -/

/-- The Go values the program stores in an `interface{}` and hands to
`json.Marshal`.  A nil `map[string]interface{}` is `null`, as `json.Marshal`
encodes it so. -/
inductive Json where
  | null : Json
  | bool (b : Bool) : Json
  | num (lit : String) : Json
  | str (s : String) : Json
  | arr (items : List Json) : Json
  | obj (fields : List (String × Json)) : Json

/-- A piece of a response body: literal text, or the bytes that
`json.Marshal` gives for a value. -/
inductive Chunk where
  | text (s : String) : Chunk
  | json (v : Json) : Chunk

/-! ## Configuration, requests, responses -/

/-- The configuration record of `main.go`. -/
structure Specification where
  Version : String
  Port : Int
  BackendService : String
  DelayResponseMsec : Int
  DelayResponsePercentage : Int
  RandomDelay : Bool
  FaultResponsePercentage : Int
  K8sUid : String
  K8sNodeName : String
  K8sHostIp : String
  K8sPodName : String
  K8sNamespace : String
  K8sPodIp : String
  K8sServiceAccountName : String
  K8sContainerName : String
  K8sCpuRequest : String
  K8sCpuLimit : String
  K8sMemoryRequest : String
  K8sMemoryLimit : String

/-- The configuration that `envconfig.Process` yields in an empty environment:
every field at its `default` tag. -/
def defaultEnv : Specification :=
  { Version := "undefined", Port := 8080, BackendService := "undefined",
    DelayResponseMsec := 0, DelayResponsePercentage := 0, RandomDelay := false,
    FaultResponsePercentage := 0, K8sUid := "undefined", K8sNodeName := "undefined",
    K8sHostIp := "undefined", K8sPodName := "undefined", K8sNamespace := "undefined",
    K8sPodIp := "undefined", K8sServiceAccountName := "undefined",
    K8sContainerName := "undefined", K8sCpuRequest := "undefined",
    K8sCpuLimit := "undefined", K8sMemoryRequest := "undefined",
    K8sMemoryLimit := "undefined" }

/-- The parts of an inbound `*http.Request` the program reads. `requestID` is
`r.Context().Value(requestIDKey)`. -/
structure Request where
  Method : String
  Path : String
  Header : Header
  RemoteAddr : String
  requestID : Option String

/-- Go's `r.WithContext(context.WithValue(r.Context(), requestIDKey, id))`. -/
def Request.WithRequestID (r : Request) (id : String) : Request :=
  { r with requestID := some id }

/-- An outbound request as built by `http.NewRequest`. -/
structure OutRequest where
  Method : String
  URL : String
  Header : Header

/-- The state of an `http.ResponseWriter`: the header map the handler edits,
the status and header map committed by the first `WriteHeader`, and the body
written so far. -/
structure ResponseWriter where
  header : Header
  committed : Option (Nat × Header)
  body : List Chunk

/-- A response writer on which nothing was written, with header map `h`. -/
def ResponseWriter.fresh (h : Header) : ResponseWriter :=
  { header := h, committed := none, body := [] }

/-- Go's `w.Header().Set(key, value)`. -/
def ResponseWriter.SetHeader (w : ResponseWriter) (key value : String) : ResponseWriter :=
  { w with header := Header.Set w.header key value }

/-- Go's `w.Header().Del(key)`. -/
def ResponseWriter.DelHeader (w : ResponseWriter) (key : String) : ResponseWriter :=
  { w with header := Header.Del w.header key }

/-- Go's `w.WriteHeader(code)`: only the first call commits. -/
def ResponseWriter.WriteHeader (w : ResponseWriter) (code : Nat) : ResponseWriter :=
  match w.committed with
  | some _ => w
  | none => { w with committed := some (code, w.header) }

/-- Go's `w.Write`: commits status 200 when nothing is committed, then appends. -/
def ResponseWriter.Write (w : ResponseWriter) (c : Chunk) : ResponseWriter :=
  let w1 := w.WriteHeader 200
  { w1 with body := w1.body ++ [c] }

/-- The status the client receives. -/
def ResponseWriter.status (w : ResponseWriter) : Option Nat :=
  w.committed.map Prod.fst

/-- The headers the client receives, as far as the handler fixed them. -/
def ResponseWriter.sentHeader (w : ResponseWriter) : Header :=
  match w.committed with
  | some (_, h) => h
  | none => []

/-- Go's `http.StatusText` on the codes the program uses. -/
def StatusText (code : Nat) : String :=
  if code = 200 then "OK"
  else if code = 404 then "Not Found"
  else if code = 503 then "Service Unavailable"
  else ""

/-- Go's `http.Error`: plain-text headers, the status, and the message
followed by a newline (`fmt.Fprintln`). -/
def Error (w : ResponseWriter) (error : String) (code : Nat) : ResponseWriter :=
  let w := w.DelHeader "Content-Length"
  let w := w.SetHeader "Content-Type" "text/plain; charset=utf-8"
  let w := w.SetHeader "X-Content-Type-Options" "nosniff"
  let w := w.WriteHeader code
  w.Write (Chunk.text (error ++ "\n"))

/-! ## The surroundings -/

/-- What the program reads from and does to its surroundings. -/
structure World where
  -- the raw output of the random source at its n-th use
  draws : Nat → Nat
  -- how many outputs of the random source were used
  drawn : Nat
  -- the n-th reading of time.Now().UnixNano()
  clock : Nat → Int
  -- how many clock readings were taken
  ticks : Nat
  -- the arguments of time.Sleep, in nanoseconds, oldest first
  slept : List Int
  -- the answer to the n-th outbound call: none is a transport error,
  -- some b the bytes read from the response body
  respond : Nat → OutRequest → Option String
  -- the outbound requests issued, oldest first
  sent : List OutRequest

/-- The result of running a piece of the program: it returns, or it panics. -/
inductive Result (α : Type) where
  | ok (a : α) (world : World) : Result α
  | panic (msg : String) (world : World) : Result α

/-- Sequencing: a panic ends the computation. -/
def Result.bind {α β : Type} (x : Result α) (f : α → World → Result β) : Result β :=
  match x with
  | Result.ok a world => f a world
  | Result.panic msg world => Result.panic msg world

/-- The world a computation ends in. -/
def Result.world {α : Type} : Result α → World
  | Result.ok _ world => world
  | Result.panic _ world => world

/-- Go's `time.Now().UnixNano()`. -/
def UnixNano (world : World) : Int × World :=
  (world.clock world.ticks, { world with ticks := world.ticks + 1 })

/-- Go's `rand.Seed(time.Now().UnixNano())`.  The outputs of the random source
are read from `World.draws` whatever the seed. -/
def Seed (world : World) : World :=
  (UnixNano world).2

/-- Go's `rand.Intn(n)`: panics when `n <= 0`, else a value in `[0, n)`. -/
def Intn (n : Int) (world : World) : Result Int :=
  if n ≤ 0 then Result.panic "invalid argument to Intn" world
  else Result.ok ((world.draws world.drawn : Int) % n) { world with drawn := world.drawn + 1 }

/-- The value of a 64-bit signed integer after wrap-around. -/
def wrapInt64 (i : Int) : Int :=
  (i + 2 ^ 63) % 2 ^ 64 - 2 ^ 63

/-- Go's `time.Millisecond`, in nanoseconds. -/
def Millisecond : Int := 1000000

/-- Go's `time.Duration(n) * time.Millisecond`. -/
def msDuration (n : Int) : Int :=
  wrapInt64 (n * Millisecond)

/-- Go's `time.Sleep(d)`: the argument is recorded. -/
def Sleep (d : Int) (world : World) : World :=
  { world with slept := world.slept ++ [d] }

/-- The time, in nanoseconds, for which `time.Sleep(d)` pauses the caller: a
negative or zero duration makes it return immediately. -/
def sleepTime (d : Int) : Int :=
  if d ≤ 0 then 0 else d

/-! ## The fault and delay injector -/

/-- The function `delay` of `main.go`. -/
def delay (env : Specification) (world : World) : Result Unit :=
  (Intn 100 (Seed world)).bind fun x world =>
    if x + 1 < env.DelayResponsePercentage then
      if env.RandomDelay then
        (Intn env.DelayResponseMsec world).bind fun y world =>
          Result.ok () (Sleep (msDuration (y + 1)) world)
      else
        Result.ok () (Sleep (msDuration env.DelayResponseMsec) world)
    else
      Result.ok () world

/-- The function `isFault` of `main.go`. -/
def isFault (env : Specification) (world : World) : Result Bool :=
  (Intn 100 (Seed world)).bind fun x world =>
    if x + 1 < env.FaultResponsePercentage then Result.ok true world
    else Result.ok false world

/-- The value of `rand.Intn(100)+1` at the next use of the random source. -/
def percentDraw (world : World) : Int :=
  (world.draws world.drawn : Int) % 100 + 1

/-! ## Route handlers -/

/-- An `http.Handler`. -/
abbrev Handler := ResponseWriter → Request → World → Result ResponseWriter

/-- The envelope `{"version": ..., "body": ...}` as the handlers build it. -/
def envelope (version : String) (body : Json) : List (String × Json) :=
  mapSet (mapSet [] "version" (Json.str version)) "body" body

/-- The handler `index` of `main.go`. -/
def index (env : Specification) : Handler := fun w r world =>
  if r.Path ≠ "/" then
    Result.ok (Error w (StatusText 404) 404) world
  else
    (delay env world).bind fun _ world =>
      (isFault env world).bind fun fault world =>
        if fault then
          let w := w.SetHeader "Content-Type" "application/json; charset=utf-8"
          let w := w.SetHeader "X-Content-Type-Options" "nosniff"
          let w := w.WriteHeader 503
          let res := envelope env.Version (Json.str "Fault.")
          Result.ok (w.Write (Chunk.json (Json.obj res))) world
        else
          let w := w.SetHeader "Content-Type" "application/json; charset=utf-8"
          let w := w.SetHeader "X-Content-Type-Options" "nosniff"
          let w := w.WriteHeader 200
          let res := envelope env.Version (Json.str env.K8sPodName)
          Result.ok (w.Write (Chunk.json (Json.obj res))) world

/-- The handler `readinessz` of `main.go`. -/
def readinessz (env : Specification) : Handler := fun w _ world =>
  let w := w.WriteHeader 200
  let response := envelope env.Version (Json.str "Readiness Check OK.")
  Result.ok (w.Write (Chunk.json (Json.obj response))) world

/-- The handler `livenessz` of `main.go`. -/
def livenessz (env : Specification) : Handler := fun w _ world =>
  let w := w.WriteHeader 200
  let response := envelope env.Version (Json.str "Liveness Check OK.")
  Result.ok (w.Write (Chunk.json (Json.obj response))) world

/-! ## The backend fan-out -/

/-- The library functions whose result the backend handler depends on. -/
structure Lib where
  -- the JSON value that a byte string denotes, none when it is not valid JSON
  decode : String → Option Json
  -- whether url.Parse accepts the string, so that http.NewRequest succeeds
  urlParses : String → Bool

/-- The value stored by `m := make(map[string]interface{})`,
`json.Unmarshal(b, &m)`, `backendBody[url] = m`: a JSON object fills the map,
JSON `null` sets the map to nil, and on any error the map stays empty. -/
def unmarshalMap (lib : Lib) (b : String) : Json :=
  match lib.decode b with
  | some (Json.obj fields) => Json.obj fields
  | some Json.null => Json.null
  | _ => Json.obj []

/-- The allow-list `tracingHeader` of `main.go`. -/
def tracingHeader : List String :=
  ["X-Request-Id", "X-B3-Traceid", "X-B3-Spanid", "X-B3-Parentspanid", "X-B3-Sampled",
    "X-B3-Flags", "B3", "X-Ot-Span-Context"]

/-- Go's `http.NewRequest(method, url, nil)`: `none` is the nil request that
comes with an error. -/
def NewRequest (lib : Lib) (method url : String) : Option OutRequest :=
  if lib.urlParses url then some { Method := method, URL := url, Header := [] } else none

/-- One round of the loop over `tracingHeader`. -/
def copyHeader (r : Request) (req : OutRequest) (h : String) : OutRequest :=
  let val := Header.Get r.Header h
  if val ≠ "" then { req with Header := Header.Set req.Header h val } else req

/-- The loop over `tracingHeader` in `backend`. -/
def copyTracingHeaders (r : Request) (req : OutRequest) : OutRequest :=
  tracingHeader.foldl (copyHeader r) req

/-- Go's `client.Do(req)` followed by `ioutil.ReadAll(resp.Body)`. -/
def Do (req : OutRequest) (world : World) : Option String × World :=
  (world.respond world.sent.length req, { world with sent := world.sent ++ [req] })

/-- The loop over the backend URLs in `backend`, with the rest of the handler
as its exit.  A nil request makes the handler panic before any call. -/
def backendLoop (env : Specification) (lib : Lib) (r : Request) :
    List String → List (String × Json) → ResponseWriter → World → Result ResponseWriter
  | [], backendBody, w, world =>
    let w := w.WriteHeader 200
    let body := mapSet (envelope env.Version (Json.str env.K8sPodName)) "backend"
      (Json.obj backendBody)
    Result.ok (w.Write (Chunk.json (Json.obj body))) world
  | url :: rest, backendBody, w, world =>
    match NewRequest lib "GET" url with
    | none => Result.panic "runtime error: invalid memory address or nil pointer dereference" world
    | some req =>
      match Do (copyTracingHeaders r req) world with
      | (none, world) => Result.ok (w.WriteHeader 503) world
      | (some b, world) =>
        backendLoop env lib r rest (mapSet backendBody url (unmarshalMap lib b)) w world

/-- The handler `backend` of `main.go`. -/
def backend (env : Specification) (lib : Lib) : Handler := fun w r world =>
  let w := w.WriteHeader 200
  let backends := Split env.BackendService ','
  backendLoop env lib r backends [] w world

/-! ## Middleware -/

/-- The middleware `tracing` of `main.go`. -/
def tracing (nextRequestID : World → String × World) (next : Handler) : Handler :=
  fun w r world =>
    let requestID := Header.Get r.Header "X-Request-Id"
    let idw := if requestID = "" then nextRequestID world else (requestID, world)
    let w := w.SetHeader "X-Request-Id" idw.1
    next w (r.WithRequestID idw.1) idw.2

/-- The generator `nextRequestID` of `main`. -/
def nextRequestID (world : World) : String × World :=
  (formatInt (UnixNano world).1, (UnixNano world).2)

/-! ## Sample inputs -/

/-- A world whose random source always yields `n`, whose clock reads `0` and
in which every outbound call fails. -/
def constWorld (n : Nat) : World :=
  { draws := fun _ => n, drawn := 0, clock := fun _ => 0, ticks := 0, slept := [],
    respond := fun _ _ => none, sent := [] }

/-- A `GET` request for `path` that carries no header. -/
def getRequest (path : String) : Request :=
  { Method := "GET", Path := path, Header := [], RemoteAddr := "127.0.0.1:40000",
    requestID := none }

/-- The default configuration with random-delay mode on and the delay
percentage at 100; the configured delay stays at its default 0. -/
def randomDelayEnv : Specification :=
  { defaultEnv with RandomDelay := true, DelayResponsePercentage := 100 }

/-- The default configuration with the delay percentage at 100 and a fixed
delay of `msec` milliseconds. -/
def fixedDelayEnv (msec : Int) : Specification :=
  { defaultEnv with DelayResponseMsec := msec, DelayResponsePercentage := 100 }

/-- The default configuration with the fault percentage at 100. -/
def faultEnv : Specification :=
  { defaultEnv with FaultResponsePercentage := 100 }

/-! ## Names for states and header maps that the statements use -/

/-- The world after one more use of the random source. -/
def afterDraw (world : World) : World :=
  { world with drawn := world.drawn + 1 }

/-- The header map of a JSON response of `index`. -/
def jsonHeader (h : Header) : Header :=
  Header.Set (Header.Set h "Content-Type" "application/json; charset=utf-8")
    "X-Content-Type-Options" "nosniff"

/-- The header map of a response of `http.Error`. -/
def errorHeader (h : Header) : Header :=
  Header.Set (Header.Set (Header.Del h "Content-Length") "Content-Type"
    "text/plain; charset=utf-8") "X-Content-Type-Options" "nosniff"

/-- The outbound request that `backend` issues for `url`: a `GET` request
with the tracing headers of the inbound request. -/
def outRequest (r : Request) (url : String) : OutRequest :=
  copyTracingHeaders r { Method := "GET", URL := url, Header := [] }

/-- Every outbound call of the fan-out succeeds: the call with the request for
the n-th URL of the list is answered with the n-th body. -/
def callsSucceed (r : Request) (respond : Nat → OutRequest → Option String) :
    Nat → List String → List String → Bool
  | _, [], [] => true
  | n, url :: urls, b :: bs =>
    decide (respond n (outRequest r url) = some b) && callsSucceed r respond (n + 1) urls bs
  | _, _, _ => false

/-- The map `backendBody` after storing, in list order, the decoded body of
each URL on top of `acc`. -/
def collect (lib : Lib) : List String → List String → List (String × Json) →
    List (String × Json)
  | url :: urls, b :: bs, acc => collect lib urls bs (mapSet acc url (unmarshalMap lib b))
  | _, _, acc => acc

/-- The library on the inputs of the examples: `url.Parse` accepts
`http://backend:8080`, and `encoding/json` decodes the bodies `{"ok":true}`
and `null`. -/
def sampleLib : Lib :=
  { decode := fun b =>
      if b = "\x7b\"ok\":true\x7d" then some (Json.obj [("ok", Json.bool true)])
      else if b = "null" then some Json.null
      else none,
    urlParses := fun url => decide (url = "http://backend:8080") }

/-- The default configuration with the one backend `http://backend:8080`. -/
def oneBackendEnv : Specification :=
  { defaultEnv with BackendService := "http://backend:8080" }

/-- The default configuration with the one backend `:bad`, which `url.Parse`
rejects (missing protocol scheme). -/
def badBackendEnv : Specification :=
  { defaultEnv with BackendService := ":bad" }

/-- A world whose clock reads `t`. -/
def clockWorld (t : Int) : World :=
  { constWorld 0 with clock := fun _ => t }

/-- A world in which every outbound call is answered with the body `b`. -/
def answeringWorld (b : String) : World :=
  { constWorld 0 with respond := fun _ _ => some b }

/-- A request to `/backend` that carries a B3 trace id, an empty B3 span id
and a cookie. -/
def tracedRequest : Request :=
  { getRequest "/backend" with
    Header := [("X-B3-Traceid", ["abc"]), ("X-B3-Spanid", [""]), ("Cookie", ["secret"])] }

/-- A generator of request ids that is never to be used: it yields the empty
string and uses up a draw of the random source. -/
def idleGenerator (world : World) : String × World :=
  ("", { world with drawn := world.drawn + 1 })

/-! ## Lemmas on maps and headers -/

theorem mapGet_mapDel_self {α : Type} (m : List (String × α)) (k : String) :
    mapGet (mapDel m k) k = none := by
  induction m with
  | nil => rfl
  | cons kv rest ih =>
    obtain ⟨k1, v⟩ := kv
    by_cases h : k1 = k
    · simpa [mapDel, h] using ih
    · simpa [mapDel, h, mapGet] using ih

theorem mapGet_mapDel_ne {α : Type} (m : List (String × α)) (k k2 : String) (hk : k2 ≠ k) :
    mapGet (mapDel m k) k2 = mapGet m k2 := by
  induction m with
  | nil => rfl
  | cons kv rest ih =>
    obtain ⟨k1, v⟩ := kv
    by_cases h : k1 = k
    · subst h
      have h2 : ¬ k1 = k2 := fun e => hk e.symm
      simpa [mapDel, mapGet, h2] using ih
    · by_cases h3 : k1 = k2
      · subst h3
        simp [mapDel, mapGet, hk]
      · simpa [mapDel, mapGet, h, h3] using ih

theorem mapGet_append {α : Type} (m n : List (String × α)) (k : String) :
    mapGet (m ++ n) k = (mapGet m k).orElse fun _ => mapGet n k := by
  induction m with
  | nil => simp [mapGet]
  | cons kv rest ih =>
    obtain ⟨k1, v⟩ := kv
    by_cases h : k1 = k
    · simp [mapGet, h]
    · simpa [mapGet, h] using ih

theorem mapGet_mapSet_self {α : Type} (m : List (String × α)) (k : String) (v : α) :
    mapGet (mapSet m k v) k = some v := by
  simp [mapSet, mapGet_append, mapGet_mapDel_self, mapGet]

theorem mapGet_mapSet_ne {α : Type} (m : List (String × α)) (k k2 : String) (v : α)
    (hk : k2 ≠ k) : mapGet (mapSet m k v) k2 = mapGet m k2 := by
  have h2 : ¬ k = k2 := fun e => hk e.symm
  simp [mapSet, mapGet_append, mapGet_mapDel_ne m k k2 hk, mapGet, h2]

theorem Header.Get_Set_self (h : Header) (key value : String) :
    Header.Get (Header.Set h key value) key = value := by
  simp [Header.Get, Header.Set, mapGet_mapSet_self]

theorem Header.Get_Set_ne (h : Header) (key key2 value : String)
    (hk : CanonicalMIMEHeaderKey key2 ≠ CanonicalMIMEHeaderKey key) :
    Header.Get (Header.Set h key value) key2 = Header.Get h key2 := by
  simp [Header.Get, Header.Set, mapGet_mapSet_ne _ _ _ _ hk]

/-! ## Lemmas on the random source and on durations -/

theorem Intn_hundred (world : World) :
    Intn 100 world = Result.ok (percentDraw world - 1) (afterDraw world) := by
  simp [Intn, percentDraw, afterDraw]

theorem Intn_pos (n : Int) (world : World) (hn : 0 < n) :
    Intn n world = Result.ok ((world.draws world.drawn : Int) % n) (afterDraw world) := by
  have h : ¬ n ≤ 0 := not_le.mpr hn
  simp [Intn, afterDraw, h]

theorem Intn_nonpos (n : Int) (world : World) (hn : n ≤ 0) :
    Intn n world = Result.panic "invalid argument to Intn" world := by
  simp [Intn, hn]

theorem percentDraw_range (world : World) : 1 ≤ percentDraw world ∧ percentDraw world ≤ 100 := by
  unfold percentDraw
  omega

theorem wrapInt64_of_range (i : Int) (h1 : -9223372036854775808 ≤ i)
    (h2 : i ≤ 9223372036854775807) : wrapInt64 i = i := by
  unfold wrapInt64
  norm_num
  omega

theorem msDuration_of_range (n : Int) (h1 : -9223372036854 ≤ n) (h2 : n ≤ 9223372036854) :
    msDuration n = n * 1000000 := by
  unfold msDuration Millisecond
  apply wrapInt64_of_range <;> omega

theorem isFault_eq (env : Specification) (world : World) :
    isFault env world =
      Result.ok (decide (percentDraw (Seed world) < env.FaultResponsePercentage))
        (afterDraw (Seed world)) := by
  unfold isFault
  rw [Intn_hundred]
  by_cases h : percentDraw (Seed world) < env.FaultResponsePercentage
  · simp [Result.bind, h]
  · simp [Result.bind, h]

theorem delay_skip (env : Specification) (world : World)
    (h : ¬ percentDraw (Seed world) < env.DelayResponsePercentage) :
    delay env world = Result.ok () (afterDraw (Seed world)) := by
  unfold delay
  rw [Intn_hundred]
  simp [Result.bind, h]

theorem delay_fixed (env : Specification) (world : World)
    (h : percentDraw (Seed world) < env.DelayResponsePercentage)
    (hr : env.RandomDelay = false) :
    delay env world =
      Result.ok () (Sleep (msDuration env.DelayResponseMsec) (afterDraw (Seed world))) := by
  unfold delay
  rw [Intn_hundred]
  simp [Result.bind, h, hr]

theorem delay_random (env : Specification) (world : World)
    (h : percentDraw (Seed world) < env.DelayResponsePercentage)
    (hr : env.RandomDelay = true) (hm : 0 < env.DelayResponseMsec) :
    delay env world =
      Result.ok ()
        (Sleep (msDuration ((world.draws (world.drawn + 1) : Int) % env.DelayResponseMsec + 1))
          (afterDraw (afterDraw (Seed world)))) := by
  unfold delay
  rw [Intn_hundred]
  simp only [Result.bind, sub_add_cancel, h, hr, if_true]
  rw [Intn_pos _ _ hm]
  rfl

theorem delay_panic (env : Specification) (world : World)
    (h : percentDraw (Seed world) < env.DelayResponsePercentage)
    (hr : env.RandomDelay = true) (hm : env.DelayResponseMsec ≤ 0) :
    delay env world = Result.panic "invalid argument to Intn" (afterDraw (Seed world)) := by
  unfold delay
  rw [Intn_hundred]
  simp only [Result.bind, sub_add_cancel, h, hr, if_true]
  rw [Intn_nonpos _ _ hm]

theorem envelope_eq (version : String) (body : Json) :
    envelope version body = [("version", Json.str version), ("body", body)] := by
  simp [envelope, mapSet, mapDel]

theorem canonical_contentType :
    CanonicalMIMEHeaderKey "Content-Type" = "Content-Type" := by decide

theorem canonical_nosniff :
    CanonicalMIMEHeaderKey "X-Content-Type-Options" = "X-Content-Type-Options" := by decide

theorem canonical_requestId :
    CanonicalMIMEHeaderKey "X-Request-Id" = "X-Request-Id" := by decide

theorem canonical_contentLength :
    CanonicalMIMEHeaderKey "Content-Length" = "Content-Length" := by decide

theorem jsonHeader_get (h : Header) :
    Header.Get (jsonHeader h) "Content-Type" = "application/json; charset=utf-8" ∧
      Header.Get (jsonHeader h) "X-Content-Type-Options" = "nosniff" := by
  constructor
  · unfold jsonHeader
    rw [Header.Get_Set_ne _ _ _ _ (by decide), Header.Get_Set_self]
  · unfold jsonHeader
    rw [Header.Get_Set_self]

theorem errorHeader_get (h : Header) :
    Header.Get (errorHeader h) "Content-Type" = "text/plain; charset=utf-8" ∧
      Header.Get (errorHeader h) "X-Content-Type-Options" = "nosniff" := by
  constructor
  · unfold errorHeader
    rw [Header.Get_Set_ne _ _ _ _ (by decide), Header.Get_Set_self]
  · unfold errorHeader
    rw [Header.Get_Set_self]

theorem index_notFound (env : Specification) (h : Header) (r : Request) (world : World)
    (hp : r.Path ≠ "/") :
    index env (ResponseWriter.fresh h) r world =
      Result.ok
        { header := errorHeader h, committed := some (404, errorHeader h),
          body := [Chunk.text "Not Found\n"] } world := by
  simp [index, hp, Error, StatusText, ResponseWriter.fresh, ResponseWriter.DelHeader,
    ResponseWriter.SetHeader, ResponseWriter.WriteHeader, ResponseWriter.Write, errorHeader]

theorem index_root (env : Specification) (h : Header) (r : Request) (world world1 : World)
    (hp : r.Path = "/") (hd : delay env world = Result.ok () world1) :
    index env (ResponseWriter.fresh h) r world =
      Result.ok
        { header := jsonHeader h,
          committed :=
            some (if percentDraw (Seed world1) < env.FaultResponsePercentage then 503 else 200,
              jsonHeader h),
          body := [Chunk.json (Json.obj [("version", Json.str env.Version),
            ("body", Json.str
              (if percentDraw (Seed world1) < env.FaultResponsePercentage then "Fault."
               else env.K8sPodName))])] }
        (afterDraw (Seed world1)) := by
  unfold index
  rw [hd]
  simp only [hp, ne_eq, not_true_eq_false, if_false, Result.bind, isFault_eq, envelope_eq]
  by_cases hf : percentDraw (Seed world1) < env.FaultResponsePercentage
  · simp [hf, ResponseWriter.fresh, ResponseWriter.SetHeader, ResponseWriter.WriteHeader,
      ResponseWriter.Write, jsonHeader]
  · simp [hf, ResponseWriter.fresh, ResponseWriter.SetHeader, ResponseWriter.WriteHeader,
      ResponseWriter.Write, jsonHeader]

/-! ## The index handler on the path "/" -/

/-- C2 (as stated, refuted): with random-delay mode on, the delay percentage at
100, the configured delay at its default 0 and the draw `rand.Intn(100)+1 = 1`,
the index handler on the path "/" ends in the runtime error of `rand.Intn(0)`:
it returns no response and the fault check does not run. -/
theorem index_root_panics :
    (getRequest "/").Path = "/" ∧
      index randomDelayEnv (ResponseWriter.fresh []) (getRequest "/") (constWorld 0) =
        Result.panic "invalid argument to Intn" (afterDraw (Seed (constWorld 0))) ∧
      ∀ w world1, index randomDelayEnv (ResponseWriter.fresh []) (getRequest "/")
        (constWorld 0) ≠ Result.ok w world1 := by
  have hd : delay randomDelayEnv (constWorld 0) =
      Result.panic "invalid argument to Intn" (afterDraw (Seed (constWorld 0))) :=
    delay_panic randomDelayEnv (constWorld 0) (by decide) rfl (by decide)
  have hi : index randomDelayEnv (ResponseWriter.fresh []) (getRequest "/") (constWorld 0) =
      Result.panic "invalid argument to Intn" (afterDraw (Seed (constWorld 0))) := by
    unfold index
    rw [hd]
    simp [getRequest, Result.bind]
  refine ⟨rfl, hi, ?_⟩
  intro w world1 h
  rw [hi] at h
  cases h

/-- C2 (amended): for every configuration, every request whose URL path is
exactly "/" and every state of the surroundings in which the delay step does
not end in a runtime error (it is not so that random-delay mode is on, the
configured delay is at most 0 and the delay decision is true), the index
handler runs the delay step, then the fault check in the state the delay step
left, and answers: status 503 with the envelope of version and "Fault." when
the fault decision is true, status 200 with the envelope of version and pod
name when it is false; in both cases with `Content-Type: application/json;
charset=utf-8` and `X-Content-Type-Options: nosniff`. -/
theorem index_root_response (env : Specification) (h : Header) (r : Request) (world : World)
    (hp : r.Path = "/")
    (hd : ¬ (env.RandomDelay = true ∧ env.DelayResponseMsec ≤ 0 ∧
      percentDraw (Seed world) < env.DelayResponsePercentage)) :
    ∃ (world1 world2 : World) (fault : Bool) (w : ResponseWriter),
      delay env world = Result.ok () world1 ∧
      isFault env world1 = Result.ok fault world2 ∧
      index env (ResponseWriter.fresh h) r world = Result.ok w world2 ∧
      w.status = some (if fault then 503 else 200) ∧
      w.body = [Chunk.json (Json.obj [("version", Json.str env.Version),
        ("body", Json.str (if fault then "Fault." else env.K8sPodName))])] ∧
      Header.Get w.sentHeader "Content-Type" = "application/json; charset=utf-8" ∧
      Header.Get w.sentHeader "X-Content-Type-Options" = "nosniff" := by
  have hdel : ∃ world1, delay env world = Result.ok () world1 := by
    by_cases hdec : percentDraw (Seed world) < env.DelayResponsePercentage
    · by_cases hr : env.RandomDelay = true
      · have hm : 0 < env.DelayResponseMsec := by
          by_contra hle
          exact hd ⟨hr, not_lt.mp hle, hdec⟩
        exact ⟨_, delay_random env world hdec hr hm⟩
      · exact ⟨_, delay_fixed env world hdec (by simpa using hr)⟩
    · exact ⟨_, delay_skip env world hdec⟩
  obtain ⟨world1, h1⟩ := hdel
  refine ⟨world1, afterDraw (Seed world1),
    decide (percentDraw (Seed world1) < env.FaultResponsePercentage), _, h1,
    isFault_eq env world1, index_root env h r world world1 hp h1, ?_, ?_, ?_, ?_⟩
  · by_cases hf : percentDraw (Seed world1) < env.FaultResponsePercentage <;>
      simp [ResponseWriter.status, hf]
  · by_cases hf : percentDraw (Seed world1) < env.FaultResponsePercentage <;> simp [hf]
  · exact (jsonHeader_get h).1
  · exact (jsonHeader_get h).2

/-- C2 (amended), at the default configuration with the fault percentage at
100 and the draws `rand.Intn(100)+1 = 1`. -/
theorem index_root_response_witness :
    (getRequest "/").Path = "/" ∧
      ¬ (faultEnv.RandomDelay = true ∧ faultEnv.DelayResponseMsec ≤ 0 ∧
        percentDraw (Seed (constWorld 0)) < faultEnv.DelayResponsePercentage) ∧
      ∃ (world1 world2 : World) (fault : Bool) (w : ResponseWriter),
        delay faultEnv (constWorld 0) = Result.ok () world1 ∧
        isFault faultEnv world1 = Result.ok fault world2 ∧
        index faultEnv (ResponseWriter.fresh []) (getRequest "/") (constWorld 0) =
          Result.ok w world2 ∧
        w.status = some (if fault then 503 else 200) ∧
        w.body = [Chunk.json (Json.obj [("version", Json.str faultEnv.Version),
          ("body", Json.str (if fault then "Fault." else faultEnv.K8sPodName))])] ∧
        Header.Get w.sentHeader "Content-Type" = "application/json; charset=utf-8" ∧
        Header.Get w.sentHeader "X-Content-Type-Options" = "nosniff" :=
  ⟨rfl, by decide,
    index_root_response faultEnv [] (getRequest "/") (constWorld 0) rfl (by decide)⟩

/-! ## The decisions at the bounds of the percentage -/

/-- C3: with the percentage at 0 neither decision is true at any draw:
`isFault` returns false and `delay` returns without sleeping.  With the
percentage at 100 and the draw `rand.Intn(100)+1 = 100` the same happens:
`isFault` returns false and `delay` returns without sleeping, so at 100 the
decision is not always true. -/
theorem decisions_at_bounds (env : Specification) (world : World) :
    isFault { env with FaultResponsePercentage := 0 } world =
        Result.ok false (afterDraw (Seed world)) ∧
      delay { env with DelayResponsePercentage := 0 } world =
        Result.ok () (afterDraw (Seed world)) ∧
      percentDraw (Seed { world with draws := fun _ => 99 }) = 100 ∧
      isFault { env with FaultResponsePercentage := 100 } { world with draws := fun _ => 99 } =
        Result.ok false (afterDraw (Seed { world with draws := fun _ => 99 })) ∧
      delay { env with DelayResponsePercentage := 100 } { world with draws := fun _ => 99 } =
        Result.ok () (afterDraw (Seed { world with draws := fun _ => 99 })) ∧
      (afterDraw (Seed { world with draws := fun _ => 99 })).slept = world.slept := by
  have h0 := (percentDraw_range (Seed world)).1
  have h99 : percentDraw (Seed { world with draws := fun _ => 99 }) = 100 := by
    simp [percentDraw, Seed, UnixNano]
  refine ⟨?_, ?_, h99, ?_, ?_, rfl⟩
  · rw [isFault_eq]
    have : ¬ percentDraw (Seed world) < 0 := by omega
    simp [this]
  · apply delay_skip
    show ¬ percentDraw (Seed world) < 0
    omega
  · rw [isFault_eq, h99]
    simp
  · apply delay_skip
    rw [h99]
    simp

/-! ## The index handler on other paths -/

/-- C7 (as stated, refuted): on the path "/nonexistent" the body that the index
handler writes is the status text followed by a newline, which is not the
status text "Not Found" itself. -/
theorem index_notFound_body_newline :
    (getRequest "/nonexistent").Path ≠ "/" ∧
      (index defaultEnv (ResponseWriter.fresh []) (getRequest "/nonexistent")
        (constWorld 0)).bind (fun w world => Result.ok w.body world) =
        Result.ok [Chunk.text "Not Found\n"] (constWorld 0) ∧
      [Chunk.text "Not Found\n"] ≠ [Chunk.text (StatusText 404)] := by
  have hp : (getRequest "/nonexistent").Path ≠ "/" := by decide
  refine ⟨hp, ?_, ?_⟩
  · rw [index_notFound defaultEnv [] _ (constWorld 0) hp]
    rfl
  · simp [StatusText]

/-- C7 (amended): for every configuration and every request dispatched to the
index handler whose URL path is not exactly "/", the response has status 404,
the headers `Content-Type: text/plain; charset=utf-8` and
`X-Content-Type-Options: nosniff`, and a plain-text body that is the standard
status text "Not Found" followed by one newline (no JSON envelope); the
handler returns without running the delay step or the fault check: the
surroundings are left as they were. -/
theorem index_other_path (env : Specification) (h : Header) (r : Request) (world : World)
    (hp : r.Path ≠ "/") :
    ∃ w : ResponseWriter,
      index env (ResponseWriter.fresh h) r world = Result.ok w world ∧
      w.status = some 404 ∧
      w.body = [Chunk.text (StatusText 404 ++ "\n")] ∧
      StatusText 404 = "Not Found" ∧
      Header.Get w.sentHeader "Content-Type" = "text/plain; charset=utf-8" ∧
      Header.Get w.sentHeader "X-Content-Type-Options" = "nosniff" :=
  ⟨_, index_notFound env h r world hp, rfl, rfl, rfl, (errorHeader_get h).1,
    (errorHeader_get h).2⟩

/-- C7 (amended), at the default configuration and the path "/nonexistent". -/
theorem index_other_path_witness :
    (getRequest "/nonexistent").Path ≠ "/" ∧
      ∃ w : ResponseWriter,
        index defaultEnv (ResponseWriter.fresh []) (getRequest "/nonexistent") (constWorld 7) =
          Result.ok w (constWorld 7) ∧
        w.status = some 404 ∧
        w.body = [Chunk.text (StatusText 404 ++ "\n")] ∧
        StatusText 404 = "Not Found" ∧
        Header.Get w.sentHeader "Content-Type" = "text/plain; charset=utf-8" ∧
        Header.Get w.sentHeader "X-Content-Type-Options" = "nosniff" :=
  ⟨by decide,
    index_other_path defaultEnv [] (getRequest "/nonexistent") (constWorld 7) (by decide)⟩

/-! ## The health handlers -/

theorem livenessz_eq (env : Specification) (h : Header) (r : Request) (world : World) :
    livenessz env (ResponseWriter.fresh h) r world =
      Result.ok
        { header := h, committed := some (200, h),
          body := [Chunk.json (Json.obj [("version", Json.str env.Version),
            ("body", Json.str "Liveness Check OK.")])] } world := by
  simp [livenessz, envelope_eq, ResponseWriter.fresh, ResponseWriter.WriteHeader,
    ResponseWriter.Write]

theorem readinessz_eq (env : Specification) (h : Header) (r : Request) (world : World) :
    readinessz env (ResponseWriter.fresh h) r world =
      Result.ok
        { header := h, committed := some (200, h),
          body := [Chunk.json (Json.obj [("version", Json.str env.Version),
            ("body", Json.str "Readiness Check OK.")])] } world := by
  simp [readinessz, envelope_eq, ResponseWriter.fresh, ResponseWriter.WriteHeader,
    ResponseWriter.Write]

/-- C8: for every configuration, request and state of the surroundings (the
random draws among them), `livenessz` answers status 200 with the envelope of
version and "Liveness Check OK." and `readinessz` answers status 200 with the
envelope of version and "Readiness Check OK."; neither uses a draw or touches
the surroundings, and the result is the same for any other request and any
other configuration with the same version string. -/
theorem health_handlers (env env2 : Specification) (h : Header) (r r2 : Request)
    (world : World) :
    (∃ w : ResponseWriter,
      livenessz env (ResponseWriter.fresh h) r world = Result.ok w world ∧
      w.status = some 200 ∧
      w.body = [Chunk.json (Json.obj [("version", Json.str env.Version),
        ("body", Json.str "Liveness Check OK.")])] ∧
      livenessz { env2 with Version := env.Version } (ResponseWriter.fresh h) r2 world =
        Result.ok w world) ∧
    (∃ w : ResponseWriter,
      readinessz env (ResponseWriter.fresh h) r world = Result.ok w world ∧
      w.status = some 200 ∧
      w.body = [Chunk.json (Json.obj [("version", Json.str env.Version),
        ("body", Json.str "Readiness Check OK.")])] ∧
      readinessz { env2 with Version := env.Version } (ResponseWriter.fresh h) r2 world =
        Result.ok w world) :=
  ⟨⟨_, livenessz_eq env h r world, rfl, rfl, livenessz_eq _ h r2 world⟩,
    ⟨_, readinessz_eq env h r world, rfl, rfl, readinessz_eq _ h r2 world⟩⟩

/-- C9: behind the tracing middleware, whose header map holds `X-Request-Id`
alone, the responses of `livenessz` and `readinessz` carry a JSON envelope
while the header map committed with them has no `Content-Type` entry: the
handlers never set it. -/
theorem health_no_contentType (env : Specification) (r : Request) (world : World)
    (id : String) :
    (∃ w : ResponseWriter,
      livenessz env (ResponseWriter.fresh (Header.Set [] "X-Request-Id" id)) r world =
        Result.ok w world ∧
      w.body = [Chunk.json (Json.obj [("version", Json.str env.Version),
        ("body", Json.str "Liveness Check OK.")])] ∧
      mapGet w.sentHeader (CanonicalMIMEHeaderKey "Content-Type") = none ∧
      Header.Get w.sentHeader "Content-Type" ≠ "application/json; charset=utf-8") ∧
    (∃ w : ResponseWriter,
      readinessz env (ResponseWriter.fresh (Header.Set [] "X-Request-Id" id)) r world =
        Result.ok w world ∧
      w.body = [Chunk.json (Json.obj [("version", Json.str env.Version),
        ("body", Json.str "Readiness Check OK.")])] ∧
      mapGet w.sentHeader (CanonicalMIMEHeaderKey "Content-Type") = none ∧
      Header.Get w.sentHeader "Content-Type" ≠ "application/json; charset=utf-8") := by
  have hn : mapGet (Header.Set [] "X-Request-Id" id) (CanonicalMIMEHeaderKey "Content-Type")
      = none := by
    unfold Header.Set
    rw [mapGet_mapSet_ne _ _ _ _ (by decide)]
    rfl
  have hg : Header.Get (Header.Set [] "X-Request-Id" id) "Content-Type" ≠
      "application/json; charset=utf-8" := by
    unfold Header.Get
    rw [hn]
    decide
  exact ⟨⟨_, livenessz_eq env _ r world, rfl, hn, hg⟩,
    ⟨_, readinessz_eq env _ r world, rfl, hn, hg⟩⟩

/-! ## The duration of the delay -/

/-- C10 (as stated, refuted): with random-delay mode off, the delay percentage
at 100 and a configured delay of 9223372036855 milliseconds, the delay
decision is true and the duration handed to `time.Sleep` is the wrapped
product -9223372036854551616 ns, not 9223372036855 milliseconds, so that the
call returns at once.  Likewise, at a configured delay of -5 milliseconds the
duration handed over is negative and the call returns at once: the time
slept is 0, not -5 milliseconds. -/
theorem delay_fixed_overflows :
    (percentDraw (Seed (constWorld 0)) <
        (fixedDelayEnv 9223372036855).DelayResponsePercentage ∧
      delay (fixedDelayEnv 9223372036855) (constWorld 0) =
        Result.ok () (Sleep (-9223372036854551616) (afterDraw (Seed (constWorld 0)))) ∧
      (-9223372036854551616 : Int) ≠ 9223372036855 * 1000000 ∧
      sleepTime (-9223372036854551616) = 0) ∧
    (percentDraw (Seed (constWorld 0)) < (fixedDelayEnv (-5)).DelayResponsePercentage ∧
      delay (fixedDelayEnv (-5)) (constWorld 0) =
        Result.ok () (Sleep (-5 * 1000000) (afterDraw (Seed (constWorld 0)))) ∧
      sleepTime (-5 * 1000000) = 0 ∧ (0 : Int) ≠ -5 * 1000000) := by
  refine ⟨⟨by decide, ?_, by decide, by decide⟩, by decide, ?_, by decide, by decide⟩
  · rw [delay_fixed (fixedDelayEnv 9223372036855) (constWorld 0) (by decide) rfl]
    rfl
  · rw [delay_fixed (fixedDelayEnv (-5)) (constWorld 0) (by decide) rfl]
    rfl

/-- C10 (amended): whenever the delay decision of `delay` is true, then: in
random-delay mode with configured maximum `M`, `1 <= M <= 9223372036854`, it
sleeps for `d` milliseconds for an integer `d` with `1 <= d <= M`, and every
such `d` is the duration at some second draw; with random-delay mode off and
`0 <= M <= 9223372036854` it sleeps for exactly `M` milliseconds (above the
bound the product in nanoseconds leaves the 64-bit range, and a negative
duration is not slept); in random-delay mode with `M = 0` no duration is
produced: the computation ends in a runtime error. -/
theorem delay_duration (env : Specification) (world : World)
    (hd : percentDraw (Seed world) < env.DelayResponsePercentage) :
    (env.RandomDelay = true → 1 ≤ env.DelayResponseMsec →
      env.DelayResponseMsec ≤ 9223372036854 →
      (∃ d : Int, 1 ≤ d ∧ d ≤ env.DelayResponseMsec ∧
        delay env world =
          Result.ok () (Sleep (d * 1000000) (afterDraw (afterDraw (Seed world)))) ∧
        sleepTime (d * 1000000) = d * 1000000) ∧
      (∀ d : Int, 1 ≤ d → d ≤ env.DelayResponseMsec →
        ∃ second : Nat,
          delay env { world with draws := Function.update world.draws (world.drawn + 1) second }
            = Result.ok () (Sleep (d * 1000000) (afterDraw (afterDraw (Seed
                { world with
                  draws := Function.update world.draws (world.drawn + 1) second })))))) ∧
    (env.RandomDelay = false → 0 ≤ env.DelayResponseMsec →
      env.DelayResponseMsec ≤ 9223372036854 →
      delay env world =
        Result.ok () (Sleep (env.DelayResponseMsec * 1000000) (afterDraw (Seed world))) ∧
      sleepTime (env.DelayResponseMsec * 1000000) = env.DelayResponseMsec * 1000000) ∧
    (env.RandomDelay = true → env.DelayResponseMsec = 0 →
      ∃ world1, delay env world = Result.panic "invalid argument to Intn" world1) := by
  have hst : ∀ x : Int, 0 ≤ x → sleepTime (x * 1000000) = x * 1000000 := by
    intro x hx
    unfold sleepTime
    split
    · omega
    · rfl
  refine ⟨?_, ?_, ?_⟩
  · intro hr h1 h2
    have hm : 0 < env.DelayResponseMsec := by omega
    constructor
    · refine ⟨(world.draws (world.drawn + 1) : Int) % env.DelayResponseMsec + 1, ?_, ?_, ?_, ?_⟩
      · have := Int.emod_nonneg (world.draws (world.drawn + 1) : Int) (ne_of_gt hm)
        omega
      · have := Int.emod_lt_of_pos (world.draws (world.drawn + 1) : Int) hm
        omega
      · rw [delay_random env world hd hr hm, msDuration_of_range]
        · have := Int.emod_nonneg (world.draws (world.drawn + 1) : Int) (ne_of_gt hm)
          omega
        · have := Int.emod_lt_of_pos (world.draws (world.drawn + 1) : Int) hm
          omega
      · apply hst
        have := Int.emod_nonneg (world.draws (world.drawn + 1) : Int) (ne_of_gt hm)
        omega
    · intro d hd1 hd2
      refine ⟨(d - 1).toNat, ?_⟩
      have hd' : percentDraw
          (Seed { world with
            draws := Function.update world.draws (world.drawn + 1) (d - 1).toNat }) <
          env.DelayResponsePercentage := by
        have : percentDraw
            (Seed { world with
              draws := Function.update world.draws (world.drawn + 1) (d - 1).toNat }) =
            percentDraw (Seed world) := by
          simp [percentDraw, Seed, UnixNano, Function.update]
        rw [this]
        exact hd
      rw [delay_random env _ hd' hr hm]
      have hv : ((Function.update world.draws (world.drawn + 1) (d - 1).toNat
          (world.drawn + 1) : Nat) : Int) = d - 1 := by
        rw [Function.update_same]
        omega
      have hmod : (d - 1) % env.DelayResponseMsec = d - 1 :=
        Int.emod_eq_of_lt (by omega) (by omega)
      simp only [hv, hmod, sub_add_cancel]
      rw [msDuration_of_range d (by omega) (by omega)]
  · intro hr h1 h2
    refine ⟨?_, hst _ h1⟩
    rw [delay_fixed env world hd hr, msDuration_of_range _ (by omega) h2]
  · intro hr hm
    exact ⟨_, delay_panic env world hd hr (le_of_eq hm)⟩

/-- C10 (amended), at a fixed delay of 250 milliseconds, at a random delay of
at most 250 milliseconds, and at random-delay mode with the default delay 0. -/
theorem delay_duration_witness :
    percentDraw (Seed (constWorld 0)) < (fixedDelayEnv 250).DelayResponsePercentage ∧
      (delay (fixedDelayEnv 250) (constWorld 0) =
        Result.ok () (Sleep (250 * 1000000) (afterDraw (Seed (constWorld 0)))) ∧
        sleepTime (250 * 1000000) = 250 * 1000000) ∧
      (∃ d : Int, 1 ≤ d ∧ d ≤ 250 ∧
        delay { fixedDelayEnv 250 with RandomDelay := true } (constWorld 0) =
          Result.ok () (Sleep (d * 1000000) (afterDraw (afterDraw (Seed (constWorld 0))))) ∧
        sleepTime (d * 1000000) = d * 1000000) ∧
      ∃ world1, delay randomDelayEnv (constWorld 0) =
        Result.panic "invalid argument to Intn" world1 :=
  ⟨by decide,
    (delay_duration (fixedDelayEnv 250) (constWorld 0) (by decide)).2.1 rfl (by decide)
      (by decide),
    ((delay_duration { fixedDelayEnv 250 with RandomDelay := true } (constWorld 0)
      (by decide)).1 rfl (by decide) (by decide)).1,
    (delay_duration randomDelayEnv (constWorld 0) (by decide)).2.2 rfl rfl⟩

/-! ## The backend fan-out -/

theorem canonical_tracingHeader (h : String) (hh : h ∈ tracingHeader) :
    CanonicalMIMEHeaderKey h = h := by
  have hall : ∀ x ∈ tracingHeader, CanonicalMIMEHeaderKey x = x := by decide
  exact hall h hh

theorem copyHeader_fields (r : Request) (req : OutRequest) (h : String) :
    (copyHeader r req h).Method = req.Method ∧ (copyHeader r req h).URL = req.URL := by
  unfold copyHeader
  by_cases hv : Header.Get r.Header h = "" <;> simp [hv]

theorem foldl_copyHeader_fields (r : Request) (hs : List String) (req : OutRequest) :
    (hs.foldl (copyHeader r) req).Method = req.Method ∧
      (hs.foldl (copyHeader r) req).URL = req.URL := by
  induction hs generalizing req with
  | nil => exact ⟨rfl, rfl⟩
  | cons h rest ih =>
    rw [List.foldl_cons]
    exact ⟨(ih _).1.trans (copyHeader_fields r req h).1,
      (ih _).2.trans (copyHeader_fields r req h).2⟩

theorem mapGet_copyHeader (r : Request) (req : OutRequest) (h k : String)
    (hc : CanonicalMIMEHeaderKey h = h) :
    mapGet (copyHeader r req h).Header k =
      if k = h ∧ Header.Get r.Header h ≠ "" then some [Header.Get r.Header h]
      else mapGet req.Header k := by
  unfold copyHeader
  by_cases hv : Header.Get r.Header h = ""
  · simp [hv]
  · by_cases hk : k = h
    · subst hk
      simp [hv, Header.Set, hc, mapGet_mapSet_self]
    · simp [hv, hk, Header.Set, hc, mapGet_mapSet_ne _ _ _ _ hk]

theorem mapGet_foldl_copyHeader (r : Request) (hs : List String)
    (hc : ∀ h ∈ hs, CanonicalMIMEHeaderKey h = h) (req : OutRequest) (k : String) :
    mapGet (hs.foldl (copyHeader r) req).Header k =
      if k ∈ hs ∧ Header.Get r.Header k ≠ "" then some [Header.Get r.Header k]
      else mapGet req.Header k := by
  induction hs generalizing req with
  | nil => simp
  | cons h rest ih =>
    rw [List.foldl_cons, ih (fun x hx => hc x (List.mem_cons_of_mem _ hx)),
      mapGet_copyHeader r req h k (hc h (List.mem_cons_self _ _))]
    by_cases hk : k = h
    · subst hk
      by_cases hv : Header.Get r.Header k = "" <;> simp [hv]
    · by_cases hv : Header.Get r.Header k = "" <;> simp [hv, hk]

theorem mapGet_outRequest (r : Request) (url k : String) :
    mapGet (outRequest r url).Header k =
      if k ∈ tracingHeader ∧ Header.Get r.Header k ≠ "" then some [Header.Get r.Header k]
      else none := by
  unfold outRequest copyTracingHeaders
  rw [mapGet_foldl_copyHeader r tracingHeader canonical_tracingHeader]
  rfl

theorem envelope_backend (version pod : String) (b : Json) :
    mapSet (envelope version (Json.str pod)) "backend" b =
      [("version", Json.str version), ("body", Json.str pod), ("backend", b)] := by
  simp [envelope_eq, mapSet, mapDel]

theorem backendLoop_success (env : Specification) (lib : Lib) (r : Request)
    (urls : List String) (hparse : ∀ u ∈ urls, lib.urlParses u = true) :
    ∀ (bodies : List String) (acc : List (String × Json)) (w : ResponseWriter) (world : World),
      callsSucceed r world.respond world.sent.length urls bodies = true →
      backendLoop env lib r urls acc w world =
        Result.ok
          ((w.WriteHeader 200).Write (Chunk.json (Json.obj
            [("version", Json.str env.Version), ("body", Json.str env.K8sPodName),
              ("backend", Json.obj (collect lib urls bodies acc))])))
          { world with sent := world.sent ++ urls.map (outRequest r) } := by
  induction urls with
  | nil =>
    intro bodies acc w world hs
    cases bodies with
    | nil => simp [backendLoop, envelope_backend, collect]
    | cons b bs => simp [callsSucceed] at hs
  | cons url rest ih =>
    intro bodies acc w world hs
    cases bodies with
    | nil => simp [callsSucceed] at hs
    | cons b bs =>
      simp only [callsSucceed, Bool.and_eq_true, decide_eq_true_eq] at hs
      obtain ⟨hb, hrest⟩ := hs
      have hu : lib.urlParses url = true := hparse url (List.mem_cons_self _ _)
      have hrest2 : callsSucceed r
          ({ world with sent := world.sent ++ [outRequest r url] } : World).respond
          ({ world with sent := world.sent ++ [outRequest r url] } : World).sent.length
          rest bs = true := by
        simpa using hrest
      have hstep := ih (fun u hm => hparse u (List.mem_cons_of_mem _ hm)) bs
        (mapSet acc url (unmarshalMap lib b)) w _ hrest2
      unfold backendLoop
      simp only [NewRequest, hu, if_true]
      have hdo : Do (copyTracingHeaders r { Method := "GET", URL := url, Header := [] }) world =
          (some b, { world with sent := world.sent ++ [outRequest r url] }) := by
        simp only [Do]
        rw [show copyTracingHeaders r { Method := "GET", URL := url, Header := [] } =
          outRequest r url from rfl, hb]
      rw [hdo]
      simp only [hstep, collect, List.map_cons, List.append_assoc, List.singleton_append]

theorem callsSucceed_length (r : Request)
    (respond : Nat → OutRequest → Option String) (urls : List String) :
    ∀ (n : Nat) (bodies : List String),
      callsSucceed r respond n urls bodies = true → bodies.length = urls.length := by
  induction urls with
  | nil =>
    intro n bodies hs
    cases bodies with
    | nil => rfl
    | cons b bs => simp [callsSucceed] at hs
  | cons url rest ih =>
    intro n bodies hs
    cases bodies with
    | nil => simp [callsSucceed] at hs
    | cons b bs =>
      simp only [callsSucceed, Bool.and_eq_true] at hs
      simp [ih (n + 1) bs hs.2]

theorem splitChars_ne_nil (sep : Char) (cs : List Char) : splitChars sep cs ≠ [] := by
  cases cs with
  | nil => simp [splitChars]
  | cons c rest =>
    unfold splitChars
    by_cases h : c = sep
    · simp [h]
    · simp only [h, if_false]
      split <;> simp

theorem splitChars_no_sep (sep : Char) (cs : List Char) :
    ∀ p ∈ splitChars sep cs, sep ∉ p := by
  induction cs with
  | nil => simp [splitChars]
  | cons c rest ih =>
    unfold splitChars
    by_cases h : c = sep
    · simp only [h, if_true]
      intro p hp
      rcases List.mem_cons.mp hp with e | e
      · simp [e]
      · exact ih p e
    · simp only [h, if_false]
      cases hs : splitChars sep rest with
      | nil => exact absurd hs (splitChars_ne_nil sep rest)
      | cons x xs =>
        rw [hs] at ih
        intro p hp
        rcases List.mem_cons.mp hp with e | e
        · rw [e]
          intro hm
          rcases List.mem_cons.mp hm with e2 | e2
          · exact h e2.symm
          · exact ih x (List.mem_cons_self _ _) e2
        · exact ih p (List.mem_cons_of_mem _ e)

theorem joinChars_splitChars (sep : Char) (cs : List Char) :
    joinChars sep (splitChars sep cs) = cs := by
  induction cs with
  | nil => simp [splitChars, joinChars]
  | cons c rest ih =>
    unfold splitChars
    by_cases h : c = sep
    · simp only [h, if_true]
      cases hs : splitChars sep rest with
      | nil => exact absurd hs (splitChars_ne_nil sep rest)
      | cons x xs =>
        rw [hs] at ih
        simp [joinChars, ih]
    · simp only [h, if_false]
      cases hs : splitChars sep rest with
      | nil => exact absurd hs (splitChars_ne_nil sep rest)
      | cons x xs =>
        rw [hs] at ih
        cases xs with
        | nil =>
          simp only [joinChars] at ih ⊢
          rw [ih]
        | cons y ys =>
          simp only [joinChars] at ih ⊢
          rw [← ih]
          simp

theorem Split_spec (s : String) (sep : Char) :
    Split s sep ≠ [] ∧ (∀ u ∈ Split s sep, sep ∉ u.data) ∧ Join (Split s sep) sep = s := by
  refine ⟨?_, ?_, ?_⟩
  · simpa [Split] using splitChars_ne_nil sep s.data
  · intro u hu
    simp only [Split, List.mem_map] at hu
    obtain ⟨p, hp, rfl⟩ := hu
    exact splitChars_no_sep sep s.data p hp
  · have hmap : (Split s sep).map String.data = splitChars sep s.data := by
      simp [Split, Function.comp_def]
    simp only [Join, hmap, joinChars_splitChars]

theorem collect_other (lib : Lib) (k : String) (urls : List String) :
    ∀ (bodies : List String) (acc : List (String × Json)), k ∉ urls →
      mapGet (collect lib urls bodies acc) k = mapGet acc k := by
  induction urls with
  | nil =>
    intro bodies acc _
    cases bodies <;> rfl
  | cons url rest ih =>
    intro bodies acc hk
    cases bodies with
    | nil => rfl
    | cons b bs =>
      have h1 : k ≠ url := fun e => hk (e ▸ List.mem_cons_self _ _)
      have h2 : k ∉ rest := fun e => hk (List.mem_cons_of_mem _ e)
      simp only [collect]
      rw [ih bs _ h2, mapGet_mapSet_ne _ _ _ _ h1]

theorem collect_keys (lib : Lib) (k : String) (urls : List String) :
    ∀ (bodies : List String) (acc : List (String × Json)), bodies.length = urls.length →
      ((mapGet (collect lib urls bodies acc) k).isSome = true ↔
        k ∈ urls ∨ (mapGet acc k).isSome = true) := by
  induction urls with
  | nil =>
    intro bodies acc _
    cases bodies <;> simp [collect]
  | cons url rest ih =>
    intro bodies acc hl
    cases bodies with
    | nil => simp at hl
    | cons b bs =>
      simp only [collect]
      rw [ih bs _ (by simpa using hl)]
      by_cases hk : k = url
      · subst hk
        simp [mapGet_mapSet_self]
      · simp [mapGet_mapSet_ne _ _ _ _ hk, hk]

theorem collect_append (lib : Lib) (pre : List String) :
    ∀ (bpre us bs : List String) (acc : List (String × Json)), bpre.length = pre.length →
      collect lib (pre ++ us) (bpre ++ bs) acc = collect lib us bs (collect lib pre bpre acc) := by
  induction pre with
  | nil =>
    intro bpre us bs acc hl
    cases bpre with
    | nil => cases us <;> cases bs <;> rfl
    | cons b rest => simp at hl
  | cons url rest ih =>
    intro bpre us bs acc hl
    cases bpre with
    | nil => simp at hl
    | cons b brest =>
      simp only [List.cons_append, collect]
      exact ih brest us bs _ (by simpa using hl)

theorem collect_last (lib : Lib) (pre post bpre bpost : List String) (u b : String)
    (acc : List (String × Json)) (hl : bpre.length = pre.length) (hu : u ∉ post) :
    mapGet (collect lib (pre ++ u :: post) (bpre ++ b :: bpost) acc) u =
      some (unmarshalMap lib b) := by
  rw [collect_append lib pre bpre (u :: post) (b :: bpost) acc hl]
  simp only [collect]
  rw [collect_other lib u post bpost _ hu, mapGet_mapSet_self]

theorem backendLoop_sent (env : Specification) (lib : Lib) (r : Request) (urls : List String) :
    ∀ (acc : List (String × Json)) (w : ResponseWriter) (world : World),
      ∃ called : List String, called <+: urls ∧
        (backendLoop env lib r urls acc w world).world.sent =
          world.sent ++ called.map (outRequest r) := by
  induction urls with
  | nil =>
    intro acc w world
    exact ⟨[], List.nil_prefix, by simp [backendLoop, Result.world]⟩
  | cons url rest ih =>
    intro acc w world
    unfold backendLoop
    by_cases hu : lib.urlParses url = true
    · simp only [NewRequest, hu, if_true, Do]
      cases hresp : world.respond world.sent.length
          (copyTracingHeaders r { Method := "GET", URL := url, Header := [] }) with
      | none =>
        exact ⟨[url], by simp, by simp [Result.world, outRequest]⟩
      | some b =>
        obtain ⟨called, hp, hs⟩ := ih (mapSet acc url (unmarshalMap lib b)) w
          { world with
            sent := world.sent ++
              [copyTracingHeaders r { Method := "GET", URL := url, Header := [] }] }
        refine ⟨url :: called, by simpa using hp, ?_⟩
        simp only [hs, List.map_cons, List.append_assoc, List.singleton_append, outRequest]
    · simp only [NewRequest, hu]
      exact ⟨[], List.nil_prefix, by simp [Result.world]⟩

theorem mapGet_none_of_forall {α : Type} (m : List (String × α)) (k : String)
    (h : mapGet m k = none) : ∀ kv ∈ m, kv.1 ≠ k := by
  induction m with
  | nil => simp
  | cons kv rest ih =>
    obtain ⟨k1, v⟩ := kv
    by_cases hk : k1 = k
    · simp [mapGet, hk] at h
    · simp only [mapGet, hk, if_false] at h
      intro kv2 hm
      rcases List.mem_cons.mp hm with e | e
      · rw [e]
        exact hk
      · exact ih h kv2 e

theorem split_oneBackend :
    Split oneBackendEnv.BackendService ',' = ["http://backend:8080"] := by decide

theorem split_badBackend : Split badBackendEnv.BackendService ',' = [":bad"] := by decide

/-- C4 (as stated, refuted): with the one backend `http://backend:8080`
answering with the body `null`, which does not parse as a JSON object, the
backend handler answers with the envelope whose `backend` maps the URL to
JSON `null`, not to the empty mapping.  And with the one backend `:bad`, for
which `http.NewRequest` gives no request, the handler ends in a runtime error
before any call is made: no outbound call fails, and there is no response. -/
theorem backend_null_body :
    (callsSucceed (getRequest "/backend") (answeringWorld "null").respond
        (answeringWorld "null").sent.length ["http://backend:8080"] ["null"] = true ∧
      (∀ fields, sampleLib.decode "null" ≠ some (Json.obj fields)) ∧
      (backend oneBackendEnv sampleLib (ResponseWriter.fresh []) (getRequest "/backend")
        (answeringWorld "null")).bind (fun w world => Result.ok (w.status, w.body) world) =
        Result.ok (some 200, [Chunk.json (Json.obj [("version", Json.str "undefined"),
          ("body", Json.str "undefined"),
          ("backend", Json.obj [("http://backend:8080", Json.null)])])])
          { answeringWorld "null" with
            sent := [outRequest (getRequest "/backend") "http://backend:8080"] } ∧
      Json.obj [("http://backend:8080", Json.null)] ≠
        Json.obj [("http://backend:8080", Json.obj [])]) ∧
    (Split badBackendEnv.BackendService ',' = [":bad"] ∧
      sampleLib.urlParses ":bad" = false ∧
      backend badBackendEnv sampleLib (ResponseWriter.fresh []) (getRequest "/backend")
        (answeringWorld "null") =
        Result.panic "runtime error: invalid memory address or nil pointer dereference"
          (answeringWorld "null") ∧
      (answeringWorld "null").sent = []) := by
  have hc : callsSucceed (getRequest "/backend") (answeringWorld "null").respond
      (answeringWorld "null").sent.length ["http://backend:8080"] ["null"] = true := by
    simp [callsSucceed, answeringWorld]
  have hp : ∀ u ∈ ["http://backend:8080"], sampleLib.urlParses u = true := by
    simp [sampleLib]
  refine ⟨⟨hc, ?_, ?_, ?_⟩, split_badBackend, by decide, ?_, rfl⟩
  · intro fields
    simp [sampleLib]
  · unfold backend
    rw [split_oneBackend, backendLoop_success _ _ _ _ hp _ _ _ _ hc]
    simp [Result.bind, collect, unmarshalMap, sampleLib, mapSet, mapDel, ResponseWriter.status,
      ResponseWriter.fresh, ResponseWriter.WriteHeader, ResponseWriter.Write, oneBackendEnv,
      defaultEnv, answeringWorld, constWorld]
  · simp
  · unfold backend
    rw [split_badBackend]
    simp [backendLoop, NewRequest, sampleLib]

/-- C4 (amended): for every configuration whose backend list splits on commas,
in list order, into the URLs `u1..un` (the list is these URLs joined by
commas, none of them holding a comma, and `n >= 1`), and every request to
`/backend` for which `http.NewRequest` yields a request for every URL and
every outbound call succeeds, the backend handler answers status 200 with the
envelope of version, pod name and `backend: B`, where `B` has exactly the
URLs `u1..un` as keys and maps each URL to the value decoded from the body of
the last call to it: the JSON object when the body is one, JSON `null` when
the body is the JSON value `null`, and the empty mapping when the body is not
valid JSON or is another JSON value; no parse failure is surfaced. -/
theorem backend_success (env : Specification) (lib : Lib) (h : Header) (r : Request)
    (world : World) (urls bodies : List String)
    (hsplit : Split env.BackendService ',' = urls)
    (hparse : ∀ u ∈ urls, lib.urlParses u = true)
    (hcalls : callsSucceed r world.respond world.sent.length urls bodies = true) :
    (urls ≠ [] ∧ (∀ u ∈ urls, ',' ∉ u.data) ∧ Join urls ',' = env.BackendService) ∧
    (∃ w : ResponseWriter,
      backend env lib (ResponseWriter.fresh h) r world =
        Result.ok w { world with sent := world.sent ++ urls.map (outRequest r) } ∧
      w.status = some 200 ∧
      w.body = [Chunk.json (Json.obj [("version", Json.str env.Version),
        ("body", Json.str env.K8sPodName),
        ("backend", Json.obj (collect lib urls bodies []))])]) ∧
    (∀ k, (mapGet (collect lib urls bodies []) k).isSome = true ↔ k ∈ urls) ∧
    (∀ (pre post bpre bpost : List String) (u b : String),
      urls = pre ++ u :: post → bodies = bpre ++ b :: bpost → bpre.length = pre.length →
      u ∉ post → mapGet (collect lib urls bodies []) u = some (unmarshalMap lib b)) ∧
    (∀ b,
      (∀ fields, lib.decode b = some (Json.obj fields) → unmarshalMap lib b = Json.obj fields) ∧
      (lib.decode b = some Json.null → unmarshalMap lib b = Json.null) ∧
      ((∀ fields, lib.decode b ≠ some (Json.obj fields)) → lib.decode b ≠ some Json.null →
        unmarshalMap lib b = Json.obj [])) := by
  refine ⟨?_, ?_, ?_, ?_, ?_⟩
  · rw [← hsplit]
    exact Split_spec env.BackendService ','
  · refine ⟨(((ResponseWriter.fresh h).WriteHeader 200).WriteHeader 200).Write
      (Chunk.json (Json.obj [("version", Json.str env.Version),
        ("body", Json.str env.K8sPodName),
        ("backend", Json.obj (collect lib urls bodies []))])), ?_, ?_, ?_⟩
    · unfold backend
      simp only [hsplit]
      exact backendLoop_success env lib r urls hparse bodies [] _ world hcalls
    · simp [ResponseWriter.status, ResponseWriter.fresh, ResponseWriter.WriteHeader,
        ResponseWriter.Write]
    · simp [ResponseWriter.fresh, ResponseWriter.WriteHeader, ResponseWriter.Write]
  · intro k
    rw [collect_keys lib k urls bodies [] (callsSucceed_length r _ urls _ bodies hcalls)]
    simp [mapGet]
  · intro pre post bpre bpost u b hu hb hl hpost
    rw [hu, hb]
    exact collect_last lib pre post bpre bpost u b [] hl hpost
  · intro b
    refine ⟨?_, ?_, ?_⟩
    · intro fields hf
      simp [unmarshalMap, hf]
    · intro hn
      simp [unmarshalMap, hn]
    · intro h1 h2
      unfold unmarshalMap
      split
      · next fields hf => exact absurd hf (h1 fields)
      · next hf => exact absurd hf h2
      · rfl

/-- C4 (amended), at the one backend `http://backend:8080` answering with the
body `{"ok":true}`: the `backend` field is `{"http://backend:8080":
{"ok": true}}`. -/
theorem backend_success_witness :
    Split oneBackendEnv.BackendService ',' = ["http://backend:8080"] ∧
      (∀ u ∈ ["http://backend:8080"], sampleLib.urlParses u = true) ∧
      callsSucceed (getRequest "/backend")
        (answeringWorld "\x7b\"ok\":true\x7d").respond
        (answeringWorld "\x7b\"ok\":true\x7d").sent.length ["http://backend:8080"]
        ["\x7b\"ok\":true\x7d"] = true ∧
      (∃ w : ResponseWriter,
        backend oneBackendEnv sampleLib (ResponseWriter.fresh []) (getRequest "/backend")
          (answeringWorld "\x7b\"ok\":true\x7d") =
          Result.ok w
            { answeringWorld "\x7b\"ok\":true\x7d" with
              sent := (answeringWorld "\x7b\"ok\":true\x7d").sent ++
                ["http://backend:8080"].map (outRequest (getRequest "/backend")) } ∧
        w.status = some 200 ∧
        w.body = [Chunk.json (Json.obj [("version", Json.str oneBackendEnv.Version),
          ("body", Json.str oneBackendEnv.K8sPodName),
          ("backend", Json.obj (collect sampleLib ["http://backend:8080"]
            ["\x7b\"ok\":true\x7d"] []))])]) ∧
      collect sampleLib ["http://backend:8080"] ["\x7b\"ok\":true\x7d"] [] =
        [("http://backend:8080", Json.obj [("ok", Json.bool true)])] ∧
      Join ["http://backend:8080"] ',' = oneBackendEnv.BackendService :=
  ⟨split_oneBackend, by simp [sampleLib], by simp [callsSucceed, answeringWorld],
    (backend_success oneBackendEnv sampleLib [] (getRequest "/backend")
      (answeringWorld "\x7b\"ok\":true\x7d") ["http://backend:8080"] ["\x7b\"ok\":true\x7d"]
      split_oneBackend (by simp [sampleLib]) (by simp [callsSucceed, answeringWorld])).2.1,
    by simp [collect, unmarshalMap, sampleLib, mapSet, mapDel],
    (backend_success oneBackendEnv sampleLib [] (getRequest "/backend")
      (answeringWorld "\x7b\"ok\":true\x7d") ["http://backend:8080"] ["\x7b\"ok\":true\x7d"]
      split_oneBackend (by simp [sampleLib])
      (by simp [callsSucceed, answeringWorld])).1.2.2⟩

/-- C5: with the one backend `http://backend:8080` and the outbound call
failing with a transport error, the backend handler calls `WriteHeader(200)`
and then `WriteHeader(503)`; the first call commits, so the status delivered
is 200, not 503, and no body is written. -/
theorem backend_unreachable_status (h : Header) (r : Request) :
    Split oneBackendEnv.BackendService ',' = ["http://backend:8080"] ∧
      (constWorld 0).respond (constWorld 0).sent.length (outRequest r "http://backend:8080") =
        none ∧
      backend oneBackendEnv sampleLib (ResponseWriter.fresh h) r (constWorld 0) =
        Result.ok (((ResponseWriter.fresh h).WriteHeader 200).WriteHeader 503)
          { constWorld 0 with sent := [outRequest r "http://backend:8080"] } ∧
      (((ResponseWriter.fresh h).WriteHeader 200).WriteHeader 503).status = some 200 ∧
      (((ResponseWriter.fresh h).WriteHeader 200).WriteHeader 503).body = [] := by
  refine ⟨split_oneBackend, rfl, ?_, rfl, rfl⟩
  unfold backend
  rw [split_oneBackend]
  simp [backendLoop, NewRequest, sampleLib, Do, constWorld, outRequest]

/-- C6: for every inbound request to `/backend`, the outbound requests that
the handler issues are `GET` requests for URLs of the configured list, in list
order, and the header map of each is fixed by the allow-list alone, which is
`X-Request-Id`, `X-B3-Traceid`, `X-B3-Spanid`, `X-B3-Parentspanid`,
`X-B3-Sampled`, `X-B3-Flags`, `B3`, `X-Ot-Span-Context`: an allow-listed
header whose inbound value is not empty is there with exactly that value, an
allow-listed header that is absent or empty inbound is not there, and no entry
has a name outside the allow-list. -/
theorem backend_outbound_headers (env : Specification) (lib : Lib) (h : Header)
    (r : Request) (world : World) :
    tracingHeader =
      ["X-Request-Id", "X-B3-Traceid", "X-B3-Spanid", "X-B3-Parentspanid", "X-B3-Sampled",
        "X-B3-Flags", "B3", "X-Ot-Span-Context"] ∧
    (∃ called : List String, called <+: Split env.BackendService ',' ∧
      (backend env lib (ResponseWriter.fresh h) r world).world.sent =
        world.sent ++ called.map (outRequest r)) ∧
    ∀ url : String,
      (outRequest r url).Method = "GET" ∧ (outRequest r url).URL = url ∧
      (∀ k ∈ ["X-Request-Id", "X-B3-Traceid", "X-B3-Spanid", "X-B3-Parentspanid", "X-B3-Sampled",
        "X-B3-Flags", "B3", "X-Ot-Span-Context"],
        Header.Get r.Header k ≠ "" →
        mapGet (outRequest r url).Header k = some [Header.Get r.Header k] ∧
        Header.Get (outRequest r url).Header k = Header.Get r.Header k) ∧
      (∀ k ∈ ["X-Request-Id", "X-B3-Traceid", "X-B3-Spanid", "X-B3-Parentspanid", "X-B3-Sampled",
        "X-B3-Flags", "B3", "X-Ot-Span-Context"],
        Header.Get r.Header k = "" → mapGet (outRequest r url).Header k = none) ∧
      (∀ k, k ∉ ["X-Request-Id", "X-B3-Traceid", "X-B3-Spanid", "X-B3-Parentspanid", "X-B3-Sampled",
        "X-B3-Flags", "B3", "X-Ot-Span-Context"] →
        mapGet (outRequest r url).Header k = none) ∧
      (∀ kv ∈ (outRequest r url).Header, kv.1 ∈ ["X-Request-Id", "X-B3-Traceid", "X-B3-Spanid", "X-B3-Parentspanid", "X-B3-Sampled",
        "X-B3-Flags", "B3", "X-Ot-Span-Context"]) := by
  refine ⟨rfl, ?_, ?_⟩
  · unfold backend
    exact backendLoop_sent env lib r _ [] _ world
  · intro url
    refine ⟨?_, ?_, ?_, ?_, ?_, ?_⟩
    · exact (foldl_copyHeader_fields r tracingHeader _).1
    · exact (foldl_copyHeader_fields r tracingHeader _).2
    · intro k hk hv
      have hk2 : k ∈ tracingHeader := hk
      have hm : mapGet (outRequest r url).Header k = some [Header.Get r.Header k] := by
        rw [mapGet_outRequest]
        simp [hk2, hv]
      refine ⟨hm, ?_⟩
      have hm2 : mapGet (outRequest r url).Header (CanonicalMIMEHeaderKey k) =
          some [Header.Get r.Header k] := by
        rw [canonical_tracingHeader k hk2]
        exact hm
      conv_lhs => unfold Header.Get
      rw [hm2]
    · intro k _ hv
      rw [mapGet_outRequest]
      simp [hv]
    · intro k hk
      have hk2 : k ∉ tracingHeader := hk
      rw [mapGet_outRequest]
      simp [hk2]
    · intro kv hkv
      by_contra hn
      have hn2 : kv.1 ∉ tracingHeader := hn
      have hnone : mapGet (outRequest r url).Header kv.1 = none := by
        rw [mapGet_outRequest]
        simp [hn2]
      exact mapGet_none_of_forall _ _ hnone kv hkv rfl

/-- C6, at a request with `X-B3-Traceid: abc`, an empty `X-B3-Spanid` and a
cookie: the trace id alone is on the outbound request. -/
theorem backend_outbound_headers_witness :
    "X-B3-Traceid" ∈ ["X-Request-Id", "X-B3-Traceid", "X-B3-Spanid", "X-B3-Parentspanid", "X-B3-Sampled",
        "X-B3-Flags", "B3", "X-Ot-Span-Context"] ∧
      Header.Get tracedRequest.Header "X-B3-Traceid" ≠ "" ∧
      "X-B3-Spanid" ∈ ["X-Request-Id", "X-B3-Traceid", "X-B3-Spanid", "X-B3-Parentspanid", "X-B3-Sampled",
        "X-B3-Flags", "B3", "X-Ot-Span-Context"] ∧
      Header.Get tracedRequest.Header "X-B3-Spanid" = "" ∧
      "Cookie" ∉ ["X-Request-Id", "X-B3-Traceid", "X-B3-Spanid", "X-B3-Parentspanid", "X-B3-Sampled",
        "X-B3-Flags", "B3", "X-Ot-Span-Context"] ∧
      mapGet (outRequest tracedRequest "http://backend:8080").Header "X-B3-Traceid" =
        some ["abc"] ∧
      mapGet (outRequest tracedRequest "http://backend:8080").Header "X-B3-Spanid" = none ∧
      mapGet (outRequest tracedRequest "http://backend:8080").Header "Cookie" = none ∧
      (backend oneBackendEnv sampleLib (ResponseWriter.fresh []) tracedRequest
        (constWorld 0)).world.sent = [outRequest tracedRequest "http://backend:8080"] ∧
      (outRequest tracedRequest "http://backend:8080").Header = [("X-B3-Traceid", ["abc"])] :=
  ⟨by decide, by decide, by decide, by decide, by decide,
    ((backend_outbound_headers oneBackendEnv sampleLib [] tracedRequest (constWorld 0)).2.2
      "http://backend:8080").2.2.1 "X-B3-Traceid" (by decide) (by decide) |>.1,
    ((backend_outbound_headers oneBackendEnv sampleLib [] tracedRequest (constWorld 0)).2.2
      "http://backend:8080").2.2.2.1 "X-B3-Spanid" (by decide) (by decide),
    ((backend_outbound_headers oneBackendEnv sampleLib [] tracedRequest (constWorld 0)).2.2
      "http://backend:8080").2.2.2.2.1 "Cookie" (by decide),
    by
      unfold backend
      rw [split_oneBackend]
      simp [backendLoop, NewRequest, sampleLib, Do, constWorld, outRequest, Result.world],
    by decide⟩

/-! ## The tracing middleware -/

theorem toDigitsCore_ne_nil (b f : Nat) :
    ∀ (n : Nat) (ds : List Char), (ds ≠ [] ∨ 0 < f) → Nat.toDigitsCore b f n ds ≠ [] := by
  induction f with
  | zero =>
    intro n ds h
    rcases h with h | h
    · simpa [Nat.toDigitsCore] using h
    · exact absurd h (Nat.lt_irrefl 0)
  | succ f ih =>
    intro n ds _
    simp only [Nat.toDigitsCore]
    split
    · simp
    · exact ih _ _ (Or.inl (by simp))

theorem toDigitsCore_eq (fuel : Nat) :
    ∀ (n : Nat) (ds : List Char), n < fuel →
      Nat.toDigitsCore 10 fuel n ds = Nat.toDigits 10 n ++ ds := by
  induction fuel using Nat.strong_induction_on with
  | _ fuel ih =>
    intro n ds hn
    cases fuel with
    | zero => exact absurd hn (Nat.not_lt_zero n)
    | succ f =>
      unfold Nat.toDigits
      simp only [Nat.toDigitsCore]
      by_cases h0 : n / 10 = 0
      · simp [h0]
      · simp only [h0, if_false]
        have hlt : n / 10 < n := Nat.div_lt_self (by omega) (by decide)
        rw [ih f (Nat.lt_succ_self f) (n / 10) _ (by omega),
          ih n hn (n / 10) _ hlt]
        simp

theorem toDigits_small (n : Nat) (h : n < 10) : Nat.toDigits 10 n = [Nat.digitChar n] := by
  unfold Nat.toDigits
  simp only [Nat.toDigitsCore]
  have : n / 10 = 0 := by omega
  simp [this, Nat.mod_eq_of_lt h]

theorem toDigits_step (n : Nat) (h : 10 ≤ n) :
    Nat.toDigits 10 n = Nat.toDigits 10 (n / 10) ++ [Nat.digitChar (n % 10)] := by
  conv_lhs => unfold Nat.toDigits
  simp only [Nat.toDigitsCore]
  have h0 : ¬ n / 10 = 0 := by omega
  simp only [h0, if_false]
  exact toDigitsCore_eq n (n / 10) _ (Nat.div_lt_self (by omega) (by decide))

theorem digitChar_facts (k : Nat) (h : k < 10) :
    (Nat.digitChar k).isDigit = true ∧ (Nat.digitChar k).toNat - 48 = k ∧
      (Nat.digitChar k = '0' → k = 0) := by
  interval_cases k <;> decide

theorem digitsValue_append (ds : List Char) (c : Char) :
    digitsValue (ds ++ [c]) = 10 * digitsValue ds + (c.toNat - 48) := by
  simp [digitsValue, List.foldl_append]

theorem toDigits_spec (n : Nat) :
    (Nat.toDigits 10 n).all Char.isDigit = true ∧ digitsValue (Nat.toDigits 10 n) = n ∧
      ((Nat.toDigits 10 n).head? = some '0' → n = 0) := by
  induction n using Nat.strong_induction_on with
  | _ n ih =>
    by_cases h : n < 10
    · rw [toDigits_small n h]
      have hd := digitChar_facts n h
      refine ⟨by simp [hd.1], by simp [digitsValue, hd.2.1], ?_⟩
      intro hh
      exact hd.2.2 (by simpa using hh)
    · have hge : 10 ≤ n := not_lt.mp h
      have hlt : n / 10 < n := Nat.div_lt_self (by omega) (by decide)
      obtain ⟨h1, h2, h3⟩ := ih (n / 10) hlt
      have hd := digitChar_facts (n % 10) (Nat.mod_lt _ (by decide))
      rw [toDigits_step n hge]
      refine ⟨by simp [h1, hd.1], ?_, ?_⟩
      · rw [digitsValue_append, h2, hd.2.1]
        omega
      · intro hh
        have hne : Nat.toDigits 10 (n / 10) ≠ [] := by
          intro e
          have hv := h2
          rw [e] at hv
          simp [digitsValue] at hv
          omega
        have hhead : (Nat.toDigits 10 (n / 10)).head? = some '0' := by
          cases hl : Nat.toDigits 10 (n / 10) with
          | nil => exact absurd hl hne
          | cons a t =>
            rw [hl] at hh
            simpa using hh
        have hz := h3 hhead
        omega

theorem formatInt_ne_empty (i : Int) : formatInt i ≠ "" := by
  intro h
  have hd := congrArg String.data h
  cases i with
  | ofNat n =>
    simp only [formatInt] at hd
    exact toDigitsCore_ne_nil 10 (n + 1) n [] (Or.inr (Nat.succ_pos n)) hd
  | negSucc n =>
    simp [formatInt] at hd

theorem formatInt_nonneg (i : Int) (hi : 0 ≤ i) :
    (formatInt i).data.all Char.isDigit = true ∧
      (digitsValue (formatInt i).data : Int) = i ∧
      ((formatInt i).data.head? = some '0' → formatInt i = "0") := by
  cases i with
  | ofNat n =>
    obtain ⟨h1, h2, h3⟩ := toDigits_spec n
    refine ⟨h1, ?_, ?_⟩
    · show ((digitsValue (Nat.toDigits 10 n) : Nat) : Int) = Int.ofNat n
      rw [h2]
      rfl
    · intro hh
      have hz : n = 0 := h3 hh
      subst hz
      rfl
  | negSucc n => exact absurd hi (by simp)

theorem formatInt_neg (i : Int) (hi : i < 0) :
    ∃ ds : List Char, (formatInt i).data = '-' :: ds ∧ ds.all Char.isDigit = true ∧
      (digitsValue ds : Int) = -i ∧ ds.head? ≠ some '0' := by
  cases i with
  | ofNat n => exact absurd hi (by simp)
  | negSucc n =>
    obtain ⟨h1, h2, h3⟩ := toDigits_spec (n + 1)
    refine ⟨Nat.toDigits 10 (n + 1), rfl, h1, ?_, ?_⟩
    · rw [h2, Int.neg_negSucc]
    · intro hh
      exact absurd (h3 hh) (Nat.succ_ne_zero n)

/-- C1: for every inbound request, inner handler and generator, the tracing
wrapper runs the inner handler on a response writer whose `X-Request-Id`
header is the correlation id and on a request whose context holds the same
id.  When the inbound `X-Request-Id` is not empty the id is that value, the
state of the surroundings is handed on untouched and the outcome is the same
with any other generator; when it is absent or empty the id is what the
generator returns.  The generator of `main` takes one reading `t` of the
clock and returns its decimal rendering, which is never the empty string: for
`t >= 0` a string of decimal digits that denotes `t` and starts with `0` only
when it is `"0"`; for `t < 0` a minus sign followed by such digits that denote
`-t`. -/
theorem tracing_correlation_id (gen gen2 : World → String × World) (next : Handler)
    (w : ResponseWriter) (r : Request) (world : World) :
    (Header.Get r.Header "X-Request-Id" ≠ "" →
      tracing gen next w r world =
        next (w.SetHeader "X-Request-Id" (Header.Get r.Header "X-Request-Id"))
          (r.WithRequestID (Header.Get r.Header "X-Request-Id")) world ∧
      tracing gen2 next w r world = tracing gen next w r world) ∧
    (Header.Get r.Header "X-Request-Id" = "" →
      tracing gen next w r world =
        next (w.SetHeader "X-Request-Id" (gen world).1) (r.WithRequestID (gen world).1)
          (gen world).2) ∧
    (∀ id : String,
      Header.Get (w.SetHeader "X-Request-Id" id).header "X-Request-Id" = id ∧
      (w.SetHeader "X-Request-Id" id).committed = w.committed ∧
      (w.SetHeader "X-Request-Id" id).body = w.body ∧
      (r.WithRequestID id).requestID = some id ∧
      (r.WithRequestID id).Header = r.Header ∧ (r.WithRequestID id).Path = r.Path) ∧
    (nextRequestID world).1 = formatInt (world.clock world.ticks) ∧
    (nextRequestID world).1 ≠ "" ∧
    (nextRequestID world).2 = { world with ticks := world.ticks + 1 } ∧
    (0 ≤ world.clock world.ticks →
      (nextRequestID world).1.data.all Char.isDigit = true ∧
      (digitsValue (nextRequestID world).1.data : Int) = world.clock world.ticks ∧
      ((nextRequestID world).1.data.head? = some '0' → (nextRequestID world).1 = "0")) ∧
    (world.clock world.ticks < 0 →
      ∃ ds : List Char, (nextRequestID world).1.data = '-' :: ds ∧
        ds.all Char.isDigit = true ∧ (digitsValue ds : Int) = -world.clock world.ticks ∧
        ds.head? ≠ some '0') := by
  refine ⟨?_, ?_, ?_, rfl, formatInt_ne_empty _, rfl, ?_, ?_⟩
  · intro hv
    simp [tracing, hv]
  · intro hv
    simp [tracing, hv]
  · intro id
    exact ⟨Header.Get_Set_self _ _ _, rfl, rfl, rfl, rfl, rfl⟩
  · intro hpos
    exact formatInt_nonneg _ hpos
  · intro hneg
    exact formatInt_neg _ hneg

/-- C1, at a request with `X-Request-Id: req-1`, with a generator that must
not be used, and at a request without the header, with the generator of
`main` and the clock at 0, at 1700000000123456789 and at -42. -/
theorem tracing_correlation_id_witness :
    Header.Get ({ getRequest "/" with Header := [("X-Request-Id", ["req-1"])] } : Request).Header
        "X-Request-Id" ≠ "" ∧
      tracing idleGenerator (livenessz defaultEnv) (ResponseWriter.fresh [])
        { getRequest "/" with Header := [("X-Request-Id", ["req-1"])] } (constWorld 0) =
        livenessz defaultEnv
          ((ResponseWriter.fresh []).SetHeader "X-Request-Id"
            (Header.Get ({ getRequest "/" with Header := [("X-Request-Id", ["req-1"])] } :
              Request).Header "X-Request-Id"))
          (({ getRequest "/" with Header := [("X-Request-Id", ["req-1"])] } :
            Request).WithRequestID
            (Header.Get ({ getRequest "/" with Header := [("X-Request-Id", ["req-1"])] } :
              Request).Header "X-Request-Id"))
          (constWorld 0) ∧
      Header.Get (getRequest "/").Header "X-Request-Id" = "" ∧
      tracing nextRequestID (livenessz defaultEnv) (ResponseWriter.fresh []) (getRequest "/")
        (constWorld 0) =
        livenessz defaultEnv
          ((ResponseWriter.fresh []).SetHeader "X-Request-Id" (nextRequestID (constWorld 0)).1)
          ((getRequest "/").WithRequestID (nextRequestID (constWorld 0)).1)
          (nextRequestID (constWorld 0)).2 ∧
      (nextRequestID (constWorld 0)).1 = "0" ∧
      (0 : Int) ≤ (clockWorld 1700000000123456789).clock (clockWorld 1700000000123456789).ticks ∧
      (digitsValue (nextRequestID (clockWorld 1700000000123456789)).1.data : Int) =
        (clockWorld 1700000000123456789).clock (clockWorld 1700000000123456789).ticks ∧
      (nextRequestID (clockWorld 1700000000123456789)).1 = "1700000000123456789" ∧
      (clockWorld (-42)).clock (clockWorld (-42)).ticks < 0 ∧
      (∃ ds : List Char, (nextRequestID (clockWorld (-42))).1.data = '-' :: ds ∧
        ds.all Char.isDigit = true ∧
        (digitsValue ds : Int) = -(clockWorld (-42)).clock (clockWorld (-42)).ticks ∧
        ds.head? ≠ some '0') ∧
      (nextRequestID (clockWorld (-42))).1 = "-42" :=
  ⟨by decide,
    ((tracing_correlation_id idleGenerator nextRequestID (livenessz defaultEnv)
      (ResponseWriter.fresh []) { getRequest "/" with Header := [("X-Request-Id", ["req-1"])] }
      (constWorld 0)).1 (by decide)).1,
    by decide,
    (tracing_correlation_id nextRequestID idleGenerator (livenessz defaultEnv)
      (ResponseWriter.fresh []) (getRequest "/") (constWorld 0)).2.1 (by decide),
    by decide,
    by decide,
    ((tracing_correlation_id nextRequestID idleGenerator (livenessz defaultEnv)
      (ResponseWriter.fresh []) (getRequest "/")
      (clockWorld 1700000000123456789)).2.2.2.2.2.2.1 (by decide)).2.1,
    by decide,
    by decide,
    (tracing_correlation_id nextRequestID idleGenerator (livenessz defaultEnv)
      (ResponseWriter.fresh []) (getRequest "/") (clockWorld (-42))).2.2.2.2.2.2.2 (by decide),
    by decide⟩

end Debug
